import Mathlib

/-!
Shallow embedding of the tokenr Python SDK (`src/tokenr/__init__.py`):
usage normalization for the two vendor interception paths, provider
detection, the `track` dispatcher with its field stripping and tag
merging, the fire-and-forget send routine, `init` configuration
resolution, and the monkey-patch installation state machine.

Python dicts are modelled as insertion-ordered association lists with
unique keys; Python truthiness of the relevant types (`None`, the empty
string, the integer 0, the empty dict) is modelled explicitly.
-/

namespace Tokenr

/-- Truthiness of an optional Python string: `None` and `""` are falsy. -/
def strTruthy : Option String → Bool
  | none => false
  | some s => !(s == "")

/-- Python `a or b` for an optional string `a` and a string `b`. -/
def strOr (a : Option String) (b : String) : String :=
  match a with
  | none => b
  | some s => if s == "" then b else s

/-- Python `a or b` where both sides are optional strings (e.g.
`agent_id or _config["default_agent_id"]`). -/
def strOrOpt (a b : Option String) : Option String :=
  match a with
  | none => b
  | some s => if s == "" then b else some s

/-- Python `x or 0` for an optional int (`getattr(..., 0) or 0` /
`prompt_tokens or 0`): `None` and `0` both collapse to `0`. -/
def intOrZero : Option Int → Int
  | none => 0
  | some n => if n == 0 then 0 else n

/-- A tag value (`tags: Dict[str, Any]`; string / number / bool payloads). -/
inductive TagVal where
  | s : String → TagVal
  | i : Int → TagVal
  | b : Bool → TagVal
deriving DecidableEq, Repr

/-- A value in the serialized tracking record. -/
inductive Value where
  | vStr : String → Value
  | vInt : Int → Value
  | vTags : List (String × TagVal) → Value
deriving DecidableEq, Repr

/-- First-match lookup in an association list (Python `d[k]` /
`k in d` for dicts modelled with unique keys). -/
def dictGet? (d : List (String × α)) (k : String) : Option α :=
  (d.find? (fun kv => kv.1 == k)).map Prod.snd

/-- Whether a key occurs in an association list. -/
def dictHasKey (d : List (String × α)) (k : String) : Bool :=
  d.any (fun kv => kv.1 == k)

/-- Python `d[k] = v` on an insertion-ordered dict: overwrite the
existing entry in place when the key exists, append otherwise. -/
def dictSet (d : List (String × α)) (k : String) (v : α) : List (String × α) :=
  match d with
  | [] => [(k, v)]
  | (k₀, v₀) :: t => if k₀ == k then (k, v) :: t else (k₀, v₀) :: dictSet t k v

/-- Python `{**d, **t}`: start from `d`, then write every entry of `t`
in order (later writes win). -/
def dictMerge (d t : List (String × α)) : List (String × α) :=
  t.foldl (fun acc kv => dictSet acc kv.1 kv.2) d

/-- Left-biased choice on options, used to state spec-side lookup
properties of merged dicts. -/
def optOr (a b : Option α) : Option α :=
  match a with
  | some v => some v
  | none => b

/-- The global `_config` dict, as a typed record. -/
structure Config where
  token : Option String
  url : String
  enabled : Bool
  timeout : Int
  debug : Bool
  default_agent_id : Option String
  default_tags : List (String × TagVal)
deriving DecidableEq, Repr

/-- The hardcoded default endpoint in the module-level `_config` literal. -/
def defaultUrl : String := "https://tokenr.co/api/v1/track"

/-- The module-level initial `_config` value. -/
def initialConfig : Config :=
  { token := none
    url := defaultUrl
    enabled := true
    timeout := 2
    debug := false
    default_agent_id := none
    default_tags := [] }

/-- The keyword arguments of `init`. -/
structure InitArgs where
  token : Option String := none
  url : Option String := none
  agent_id : Option String := none
  tags : Option (List (String × TagVal)) := none
  enabled : Bool := true
  debug : Bool := false
deriving Repr

/-- The environment variables `init` consults. -/
structure EnvVars where
  tokenr_token : Option String := none
  tokenr_url : Option String := none
deriving Repr

/-- The configuration-mutation portion of `init`:
`_config["token"] = token or os.getenv("TOKENR_TOKEN")`,
`_config["url"] = url or os.getenv("TOKENR_URL", _config["url"])`, and
the direct assignments of the remaining fields.  `os.getenv(name)` with
no default yields `None` when unset; with a default it yields the
default when unset. -/
def initConfig (cfg : Config) (a : InitArgs) (env : EnvVars) : Config :=
  { cfg with
    token := strOrOpt a.token env.tokenr_token
    url := strOr a.url (env.tokenr_url.getD cfg.url)
    enabled := a.enabled
    debug := a.debug
    default_agent_id := a.agent_id
    default_tags := a.tags.getD [] }

/-- The parameters of `track`, with the Python defaults. -/
structure TrackArgs where
  provider : String
  model : String
  input_tokens : Int
  output_tokens : Int
  cache_read_tokens : Int := 0
  cache_write_tokens : Int := 0
  agent_id : Option String := none
  feature_name : Option String := none
  team_id : Option String := none
  status : String := "success"
  latency_ms : Option Int := none
  tags : Option (List (String × TagVal)) := none
  requested_at : Option String := none
deriving Repr

/-- The `data` dict literal built inside `track`, before `None`
stripping: each entry is the key together with its possibly-`None`
value, in source order. -/
def rawData (cfg : Config) (a : TrackArgs) : List (String × Option Value) :=
  let mergedTags := dictMerge cfg.default_tags (a.tags.getD [])
  [ ("provider", some (.vStr a.provider)),
    ("model", some (.vStr a.model)),
    ("input_tokens", some (.vInt a.input_tokens)),
    ("output_tokens", some (.vInt a.output_tokens)),
    ("cache_read_tokens", if a.cache_read_tokens == 0 then none else some (.vInt a.cache_read_tokens)),
    ("cache_write_tokens", if a.cache_write_tokens == 0 then none else some (.vInt a.cache_write_tokens)),
    ("agent_id", (strOrOpt a.agent_id cfg.default_agent_id).map .vStr),
    ("feature_name", a.feature_name.map .vStr),
    ("team_id", a.team_id.map .vStr),
    ("status", some (.vStr a.status)),
    ("latency_ms", a.latency_ms.map .vInt),
    ("tags", if mergedTags.isEmpty then none else some (.vTags mergedTags)),
    ("requested_at", a.requested_at.map .vStr) ]

/-- `data = {k: v for k, v in data.items() if v is not None}`. -/
def stripNone (l : List (String × Option Value)) : List (String × Value) :=
  l.filterMap (fun kv => kv.2.map (fun v => (kv.1, v)))

/-- The serialized record `track` hands to `_send_tracking`. -/
def buildData (cfg : Config) (a : TrackArgs) : List (String × Value) :=
  stripNone (rawData cfg a)

/-- `track`: returns the record dispatched to `_send_tracking`, or
`none` when the guard `if not _config["enabled"] or not _config["token"]`
makes it return immediately (no record is built, nothing is sent). -/
def track (cfg : Config) (a : TrackArgs) : Option (List (String × Value)) :=
  if !cfg.enabled || !strTruthy cfg.token then none
  else some (buildData cfg a)

/-- What `requests.post` may produce inside `_send`: a response object. -/
structure HttpResp where
  ok : Bool
  status_code : Int
deriving DecidableEq, Repr

/-- The behavior of the single `requests.post` call: either a response
(possibly with a non-success status) or a raised exception (timeout,
connection error, anything). -/
abbrev NetBehavior := Except String HttpResp

/-- The body of `_send` in `_send_tracking`: one `requests.post`
attempt inside `try: ... except Exception: pass`-style handling (the
handler only logs in debug mode).  Returns the number of delivery
attempts made together with the outcome as seen by whoever runs the
body — an `Except.error` would model a propagating exception. -/
def sendTracking (net : NetBehavior) : Nat × Except String Unit :=
  (1,
    match net with
    | .ok _resp => .ok ()
    | .error _e => .ok ())

/-- `_OPENAI_COMPAT_PROVIDERS`, in source (insertion) order. -/
def openaiCompatProviders : List (String × String) :=
  [ ("minimax", "minimax"),
    ("anthropic", "anthropic"),
    ("googleapis", "google"),
    ("mistral", "mistral"),
    ("cohere", "cohere"),
    ("deepseek", "deepseek"),
    ("x.ai", "xai"),
    ("xai", "xai"),
    ("azure", "azure_openai") ]

/-- Python `needle in hay` substring containment, over character lists. -/
def strContains (hay needle : String) : Bool :=
  (List.range (hay.data.length + 1)).any
    (fun i => needle.data.isPrefixOf (hay.data.drop i))

/-- Python `str.lower()`, modelled character-wise (the matched
substrings and realistic base URLs are ASCII). -/
def strLower (s : String) : String := ⟨s.data.map Char.toLower⟩

/-- The `for keyword, slug in _OPENAI_COMPAT_PROVIDERS.items()` loop of
`_detect_provider`, with the fallthrough `return "openai"`. -/
def detectLoop : List (String × String) → String → String
  | [], _ => "openai"
  | (keyword, slug) :: rest, u =>
      if strContains u keyword then slug else detectLoop rest u

/-- `_detect_provider`: `baseUrl = none` models a client handle whose
base URL cannot be read (missing `_client`, missing/falsy `base_url`),
which the source collapses to the empty string before lowercasing. -/
def detectProvider (baseUrl : Option String) : String :=
  detectLoop openaiCompatProviders (strLower (baseUrl.getD ""))

/-- Spec-side notion: `needle` occurs somewhere inside `hay`. -/
def occursIn (needle hay : String) : Prop :=
  ∃ l r, hay.data = l ++ needle.data ++ r

/-- The out-of-band `tokenr_*` keyword arguments both wrappers pop. -/
structure CallMeta where
  agent_id : Option String := none
  feature_name : Option String := none
  team_id : Option String := none
  tags : Option (List (String × TagVal)) := none
deriving Repr

/-- `usage.prompt_tokens_details` on an OpenAI-style response;
`cached_tokens := none` models the attribute being absent or `None`
(`getattr(details, 'cached_tokens', 0) or 0`). -/
structure PromptTokensDetails where
  cached_tokens : Option Int := none
deriving Repr

/-- `response.usage` on an OpenAI-style response.  `prompt_tokens` is
optional because the source guards it with `or 0`. -/
structure OpenAIUsage where
  prompt_tokens : Option Int
  completion_tokens : Int
  prompt_tokens_details : Option PromptTokensDetails := none
deriving Repr

/-- An OpenAI-style response; `usage := none` models a response with no
(or falsy) `usage` attribute. -/
structure OpenAIResponse where
  model : String
  usage : Option OpenAIUsage
deriving Repr

/-- `int(getattr(details, 'cached_tokens', 0) or 0)` where `details`
is `getattr(response.usage, 'prompt_tokens_details', None)`. -/
def openaiCacheRead (u : OpenAIUsage) : Int :=
  match u.prompt_tokens_details with
  | none => 0
  | some d => intOrZero d.cached_tokens

/-- The `track(...)` argument record built by the OpenAI wrapper when
usage is present. -/
def openaiUsageArgs (provider : String) (model : String) (u : OpenAIUsage)
    (meta : CallMeta) (latency_ms : Int) : TrackArgs :=
  let cache_read := openaiCacheRead u
  let non_cached_input := intOrZero u.prompt_tokens - cache_read
  { provider := provider
    model := model
    input_tokens := max non_cached_input 0
    output_tokens := u.completion_tokens
    cache_read_tokens := cache_read
    agent_id := meta.agent_id
    feature_name := meta.feature_name
    team_id := meta.team_id
    latency_ms := some latency_ms
    tags := meta.tags }

/-- The success path of the patched OpenAI `tracked_create`: the
original call already returned `resp`; the wrapper possibly dispatches
one record and hands `resp` back unchanged.  The first component is
what the caller receives; the second is the record given to
`_send_tracking` (when any). -/
def trackedCreateOpenAI (cfg : Config) (baseUrl : Option String)
    (resp : OpenAIResponse) (meta : CallMeta) (latency_ms : Int) :
    OpenAIResponse × Option (List (String × Value)) :=
  match resp.usage with
  | none => (resp, none)
  | some u =>
      (resp,
       track cfg (openaiUsageArgs (detectProvider baseUrl) resp.model u meta latency_ms))

/-- `response.usage` on an Anthropic-style response.  The two cache
fields are optional because the source guards them with
`getattr(..., 0) or 0`. -/
structure AnthropicUsage where
  input_tokens : Int
  output_tokens : Int
  cache_creation_input_tokens : Option Int := none
  cache_read_input_tokens : Option Int := none
deriving Repr

/-- An Anthropic-style response; `usage := none` models a response with
no (or falsy) `usage` attribute. -/
structure AnthropicResponse where
  model : String
  usage : Option AnthropicUsage
deriving Repr

/-- The `track(...)` argument record built by the Anthropic wrapper
when usage is present. -/
def anthropicUsageArgs (model : String) (u : AnthropicUsage)
    (meta : CallMeta) (latency_ms : Int) : TrackArgs :=
  let cache_write := intOrZero u.cache_creation_input_tokens
  let cache_read := intOrZero u.cache_read_input_tokens
  { provider := "anthropic"
    model := model
    input_tokens := u.input_tokens
    output_tokens := u.output_tokens
    cache_write_tokens := cache_write
    cache_read_tokens := cache_read
    agent_id := meta.agent_id
    feature_name := meta.feature_name
    team_id := meta.team_id
    latency_ms := some latency_ms
    tags := meta.tags }

/-- The success path of the patched Anthropic `tracked_create`. -/
def trackedCreateAnthropic (cfg : Config) (resp : AnthropicResponse)
    (meta : CallMeta) (latency_ms : Int) :
    AnthropicResponse × Option (List (String × Value)) :=
  match resp.usage with
  | none => (resp, none)
  | some u =>
      (resp, track cfg (anthropicUsageArgs resp.model u meta latency_ms))

/-- A function object sitting at a vendor entry point: either the
library's original `create`, or a `tracked_create` wrapper closed over
the function it replaced. -/
inductive Fn where
  | orig : Fn
  | wrapper : Fn → Fn
deriving DecidableEq, Repr

/-- The mutable state a patch routine touches: the current value of the
vendor entry-point attribute, and the keys of `_original_methods`. -/
structure PatchState where
  create : Fn
  originals : List Fn
deriving DecidableEq, Repr

/-- The state at import time: unpatched entry point, empty
`_original_methods`. -/
def patchState0 : PatchState := { create := .orig, originals := [] }

/-- One run of `_patch_openai` / `_patch_anthropic` (vendor library
present): read `original_create` from the entry point; if it is a key
of `_original_methods`, return; otherwise record it as a key, build
`tracked_create` closed over it, and install that wrapper. -/
def patchVendor (s : PatchState) : PatchState :=
  if s.create ∈ s.originals then s
  else { create := .wrapper s.create, originals := s.create :: s.originals }

/-- Number of wrapper layers around the underlying implementation. -/
def wrapperLayers : Fn → Nat
  | .orig => 0
  | .wrapper f => wrapperLayers f + 1

/-- How many times a call through `f` executes the underlying vendor
implementation (each wrapper forwards exactly once). -/
def underlyingCalls : Fn → Nat
  | .orig => 1
  | .wrapper f => underlyingCalls f

/-- How many tracking records a call through `f` dispatches on a
response carrying usage, with tracking enabled: each wrapper layer
invokes `track` once after the forwarded call returns. -/
def dispatchCount : Fn → Nat
  | .orig => 0
  | .wrapper f => dispatchCount f + 1

/-! ## Association-list lemmas -/

theorem dictGet?_eq_none_of_not_key (l : List (String × α)) (k : String)
    (h : ∀ kv ∈ l, kv.1 ≠ k) : dictGet? l k = none := by
  unfold dictGet?
  rw [List.find?_eq_none.mpr]
  · rfl
  · intro x hx
    simpa using h x hx

theorem dictHasKey_eq_isSome (l : List (String × α)) (k : String) :
    dictHasKey l k = (dictGet? l k).isSome := by
  induction l with
  | nil => rfl
  | cons hd tl ih =>
      by_cases h : hd.1 == k
      · simp [dictHasKey, dictGet?, List.any_cons, List.find?_cons, h]
      · simp only [Bool.not_eq_true] at h
        simpa [dictHasKey, dictGet?, List.any_cons, List.find?_cons, h] using ih

theorem stripNone_key_mem (l : List (String × Option Value)) :
    ∀ kv ∈ stripNone l, kv.1 ∈ l.map Prod.fst := by
  intro kv hkv
  unfold stripNone at hkv
  rw [List.mem_filterMap] at hkv
  obtain ⟨a, hmem, hfa⟩ := hkv
  rw [Option.map_eq_some'] at hfa
  obtain ⟨v, _, hv⟩ := hfa
  rw [← hv]
  exact List.mem_map_of_mem Prod.fst hmem

theorem dictGet?_stripNone (l : List (String × Option Value)) (k : String)
    (h : (l.map Prod.fst).Nodup) :
    dictGet? (stripNone l) k = (l.find? (fun kv => kv.1 == k)).bind Prod.snd := by
  induction l with
  | nil => rfl
  | cons hd tl ih =>
      obtain ⟨k₀, v₀⟩ := hd
      simp only [List.map_cons, List.nodup_cons] at h
      obtain ⟨hk₀, htl⟩ := h
      by_cases hkk : k₀ = k
      · subst hkk
        cases v₀ with
        | none =>
            have hnone : dictGet? (stripNone tl) k₀ = none := by
              apply dictGet?_eq_none_of_not_key
              intro kv hkv he
              exact hk₀ (he ▸ stripNone_key_mem tl kv hkv)
            simpa [stripNone, List.find?_cons] using hnone
        | some v =>
            simp [stripNone, dictGet?, List.find?_cons]
      · have hbeq : (k₀ == k) = false := by simpa using hkk
        cases v₀ with
        | none =>
            simpa [stripNone, List.find?_cons, hbeq] using ih htl
        | some v =>
            simpa [stripNone, dictGet?, List.find?_cons, hbeq] using ih htl

theorem dictGet?_dictSet_self (d : List (String × α)) (k : String) (v : α) :
    dictGet? (dictSet d k v) k = some v := by
  induction d with
  | nil => simp [dictSet, dictGet?, List.find?_cons]
  | cons hd tl ih =>
      obtain ⟨k₀, v₀⟩ := hd
      by_cases h : k₀ == k
      · simp [dictSet, h, dictGet?, List.find?_cons]
      · simp only [Bool.not_eq_true] at h
        simpa [dictSet, h, dictGet?, List.find?_cons] using ih

theorem dictGet?_dictSet_ne (d : List (String × α)) (k : String) (v : α)
    (k' : String) (hne : k' ≠ k) :
    dictGet? (dictSet d k v) k' = dictGet? d k' := by
  have hkk' : (k == k') = false := by simpa using (Ne.symm hne)
  induction d with
  | nil => simp [dictSet, dictGet?, List.find?_cons, hkk']
  | cons hd tl ih =>
      obtain ⟨k₀, v₀⟩ := hd
      by_cases h : k₀ == k
      · have hk : k₀ = k := by simpa using h
        simp [dictSet, h, dictGet?, List.find?_cons, hkk', hk]
      · simp only [Bool.not_eq_true] at h
        by_cases h' : k₀ == k'
        · simp [dictSet, h, dictGet?, List.find?_cons, h']
        · simp only [Bool.not_eq_true] at h'
          simpa [dictSet, h, dictGet?, List.find?_cons, h'] using ih

theorem optOr_none_right (a : Option α) : optOr a none = a := by
  cases a <;> rfl

theorem dictGet?_dictMerge (d t : List (String × α))
    (ht : (t.map Prod.fst).Nodup) (k : String) :
    dictGet? (dictMerge d t) k = optOr (dictGet? t k) (dictGet? d k) := by
  induction t generalizing d with
  | nil => simp [dictMerge, dictGet?, optOr]
  | cons hd tl ih =>
      obtain ⟨k₀, v₀⟩ := hd
      simp only [List.map_cons, List.nodup_cons] at ht
      obtain ⟨hk₀, htl⟩ := ht
      have hstep : dictMerge d ((k₀, v₀) :: tl) = dictMerge (dictSet d k₀ v₀) tl := rfl
      rw [hstep, ih _ htl]
      by_cases hkk : k = k₀
      · subst hkk
        have htlnone : dictGet? tl k = none := by
          apply dictGet?_eq_none_of_not_key
          intro kv hkv he
          exact hk₀ (he ▸ List.mem_map_of_mem Prod.fst hkv)
        rw [htlnone, dictGet?_dictSet_self]
        simp [dictGet?, List.find?_cons, optOr]
      · have hbeq : (k₀ == k) = false := by simpa using (Ne.symm hkk)
        rw [dictGet?_dictSet_ne _ _ _ _ hkk]
        simp [dictGet?, List.find?_cons, hbeq, optOr]

/-! ## Substring containment and provider detection -/

theorem strContains_iff (hay needle : String) :
    strContains hay needle = true ↔ occursIn needle hay := by
  unfold strContains occursIn
  rw [List.any_eq_true]
  constructor
  · rintro ⟨i, _, hpre⟩
    rw [List.isPrefixOf_iff_prefix] at hpre
    obtain ⟨r, hr⟩ := hpre
    refine ⟨hay.data.take i, r, ?_⟩
    rw [List.append_assoc, hr]
    exact (List.take_append_drop i hay.data).symm
  · rintro ⟨l, r, hlr⟩
    refine ⟨l.length, ?_, ?_⟩
    · rw [List.mem_range]
      have hle : l.length ≤ hay.data.length := by
        rw [hlr]
        simp only [List.length_append]
        omega
      omega
    · rw [List.isPrefixOf_iff_prefix, hlr, List.append_assoc, List.drop_left]
      exact ⟨r, rfl⟩

theorem strContains_false_iff (hay needle : String) :
    strContains hay needle = false ↔ ¬ occursIn needle hay := by
  rw [← strContains_iff hay needle]
  cases strContains hay needle <;> simp

theorem detectLoop_first_match (l : List (String × String)) (u : String) :
    (∃ pre kw slug post,
        l = pre ++ (kw, slug) :: post ∧
        strContains u kw = true ∧
        (∀ p ∈ pre, strContains u p.1 = false) ∧
        detectLoop l u = slug) ∨
    ((∀ p ∈ l, strContains u p.1 = false) ∧ detectLoop l u = "openai") := by
  induction l with
  | nil =>
      refine Or.inr ⟨?_, rfl⟩
      intro p hp
      exact absurd hp (List.not_mem_nil p)
  | cons hd tl ih =>
      obtain ⟨kw, slug⟩ := hd
      by_cases h : strContains u kw = true
      · refine Or.inl ⟨[], kw, slug, tl, rfl, h, ?_, ?_⟩
        · intro p hp
          exact absurd hp (List.not_mem_nil p)
        · simp [detectLoop, h]
      · simp only [Bool.not_eq_true] at h
        rcases ih with ⟨pre, kw', slug', post, heq, hc, hpre, hres⟩ | ⟨hall, hres⟩
        · refine Or.inl ⟨(kw, slug) :: pre, kw', slug', post, by rw [heq]; rfl, hc, ?_, ?_⟩
          · intro p hp
            rcases List.mem_cons.mp hp with rfl | hp'
            · exact h
            · exact hpre p hp'
          · simpa [detectLoop, h] using hres
        · refine Or.inr ⟨?_, by simpa [detectLoop, h] using hres⟩
          intro p hp
          rcases List.mem_cons.mp hp with rfl | hp'
          · exact h
          · exact hall p hp'

/-! ## Normalizer helper lemmas -/

theorem intOrZero_eq_getD (o : Option Int) : intOrZero o = o.getD 0 := by
  cases o with
  | none => rfl
  | some n =>
      by_cases h : n = 0
      · simp [intOrZero, h]
      · simp [intOrZero, h]

theorem openaiCacheRead_eq (u : OpenAIUsage) :
    openaiCacheRead u
      = (u.prompt_tokens_details.bind PromptTokensDetails.cached_tokens).getD 0 := by
  unfold openaiCacheRead
  cases u.prompt_tokens_details with
  | none => rfl
  | some d => simp [intOrZero_eq_getD, Option.bind]

theorem rawData_keys_nodup (cfg : Config) (a : TrackArgs) :
    ((rawData cfg a).map Prod.fst).Nodup := by
  have h : (rawData cfg a).map Prod.fst
      = ["provider", "model", "input_tokens", "output_tokens", "cache_read_tokens",
         "cache_write_tokens", "agent_id", "feature_name", "team_id", "status",
         "latency_ms", "tags", "requested_at"] := rfl
  rw [h]
  decide

theorem dictGet?_buildData (cfg : Config) (a : TrackArgs) (k : String) :
    dictGet? (buildData cfg a) k
      = ((rawData cfg a).find? (fun kv => kv.1 == k)).bind Prod.snd :=
  dictGet?_stripNone _ _ (rawData_keys_nodup cfg a)

/-! ## Claim theorems -/

/-- C1: for every vendor-A (OpenAI-compatible) response carrying usage
information, the wrapper dispatches the record built by
`openaiUsageArgs`, whose normalized input-token count equals
`max(rawPromptTokens - cacheReadTokens, 0)`, where the cache-read count
is read from the nested `prompt_tokens_details.cached_tokens` field and
defaults to 0 when that nested structure is absent or `None`; the
cache-read count itself is reported as read. -/
theorem openai_normalizes_input_tokens (cfg : Config) (baseUrl : Option String)
    (resp : OpenAIResponse) (u : OpenAIUsage) (meta : CallMeta) (lat : Int)
    (h : resp.usage = some u) :
    (trackedCreateOpenAI cfg baseUrl resp meta lat).2
        = track cfg (openaiUsageArgs (detectProvider baseUrl) resp.model u meta lat) ∧
    (openaiUsageArgs (detectProvider baseUrl) resp.model u meta lat).input_tokens
        = max ((u.prompt_tokens.getD 0)
            - (u.prompt_tokens_details.bind PromptTokensDetails.cached_tokens).getD 0) 0 ∧
    (openaiUsageArgs (detectProvider baseUrl) resp.model u meta lat).cache_read_tokens
        = (u.prompt_tokens_details.bind PromptTokensDetails.cached_tokens).getD 0 := by
  refine ⟨?_, ?_, ?_⟩
  · simp [trackedCreateOpenAI, h]
  · simp [openaiUsageArgs, openaiCacheRead_eq, intOrZero_eq_getD]
  · simp [openaiUsageArgs, openaiCacheRead_eq]

theorem openai_normalizes_input_tokens_witness :
    (openaiUsageArgs (detectProvider none) "gpt-4"
        ⟨some 100, 5, some ⟨some 30⟩⟩ {} 12).input_tokens = 70 := by
  have h := (openai_normalizes_input_tokens initialConfig none
      ⟨"gpt-4", some ⟨some 100, 5, some ⟨some 30⟩⟩⟩ ⟨some 100, 5, some ⟨some 30⟩⟩ {} 12 rfl).2.1
  rw [h]
  decide

/-- C2: for every vendor-B (Anthropic-compatible) response carrying
usage information, the wrapper dispatches the record built by
`anthropicUsageArgs`, whose normalized input-token count equals the raw
reported `input_tokens` unchanged (no subtraction), while the
cache-read and cache-write counts are taken from their two independent
fields, each defaulting to 0 when the field is absent or `None`. -/
theorem anthropic_normalizes_input_tokens (cfg : Config)
    (resp : AnthropicResponse) (u : AnthropicUsage) (meta : CallMeta) (lat : Int)
    (h : resp.usage = some u) :
    (trackedCreateAnthropic cfg resp meta lat).2
        = track cfg (anthropicUsageArgs resp.model u meta lat) ∧
    (anthropicUsageArgs resp.model u meta lat).input_tokens = u.input_tokens ∧
    (anthropicUsageArgs resp.model u meta lat).cache_read_tokens
        = u.cache_read_input_tokens.getD 0 ∧
    (anthropicUsageArgs resp.model u meta lat).cache_write_tokens
        = u.cache_creation_input_tokens.getD 0 := by
  refine ⟨?_, rfl, ?_, ?_⟩
  · simp [trackedCreateAnthropic, h]
  · simp [anthropicUsageArgs, intOrZero_eq_getD]
  · simp [anthropicUsageArgs, intOrZero_eq_getD]

theorem anthropic_normalizes_input_tokens_witness :
    (anthropicUsageArgs "claude-3" ⟨100, 7, none, some 30⟩ {} 12).input_tokens = 100 := by
  have h := (anthropic_normalizes_input_tokens initialConfig
      ⟨"claude-3", some ⟨100, 7, none, some 30⟩⟩ ⟨100, 7, none, some 30⟩ {} 12 rfl).2.1
  rw [h]

/-- C3: the claim asserts idempotent installation (re-initialization
leaves exactly one wrapper layer, so one call dispatches at most one
record).  On the code, however, running the patch routine a second time
reads the already-installed wrapper from the entry point, finds it is
not a key of `_original_methods` (only the original implementation is),
and wraps again: after two initializations the entry point carries two
wrapper layers and one call dispatches two tracking records (the
underlying implementation still executes once). -/
theorem patch_twice_double_wraps :
    wrapperLayers (patchVendor patchState0).create = 1 ∧
    (patchVendor (patchVendor patchState0)).create = .wrapper (.wrapper .orig) ∧
    wrapperLayers (patchVendor (patchVendor patchState0)).create = 2 ∧
    underlyingCalls (patchVendor (patchVendor patchState0)).create = 1 ∧
    dispatchCount (patchVendor (patchVendor patchState0)).create = 2 := by
  decide

/-- C4: `track` returns immediately, building no record and handing
nothing to `_send_tracking`, whenever tracking is disabled or no
credential is configured (a `None` or empty token), for any arguments. -/
theorem track_disabled_or_no_token_is_noop (cfg : Config) (a : TrackArgs)
    (h : cfg.enabled = false ∨ strTruthy cfg.token = false) :
    track cfg a = none := by
  unfold track
  rcases h with h | h <;> simp [h]

theorem track_disabled_or_no_token_is_noop_witness :
    track { initialConfig with token := some "tok", enabled := false }
      { provider := "openai", model := "gpt-4", input_tokens := 10, output_tokens := 5 }
      = none ∧
    track initialConfig
      { provider := "openai", model := "gpt-4", input_tokens := 10, output_tokens := 5 }
      = none :=
  ⟨track_disabled_or_no_token_is_noop _ _ (Or.inl rfl),
   track_disabled_or_no_token_is_noop _ _ (Or.inr rfl)⟩

/-- C8: the single delivery attempt of `_send_tracking` swallows every
failure (non-success HTTP status, timeout, connection error, any raised
exception): the send body never lets an exception escape and makes
exactly one attempt with no retry, and both interception wrappers hand
the tracked call's response back to the caller unaltered. -/
theorem send_failure_swallowed (net : NetBehavior) (cfg : Config)
    (baseUrl : Option String) (resp : OpenAIResponse) (meta : CallMeta) (lat : Int)
    (resp' : AnthropicResponse) (meta' : CallMeta) (lat' : Int) :
    sendTracking net = (1, Except.ok ()) ∧
    (trackedCreateOpenAI cfg baseUrl resp meta lat).1 = resp ∧
    (trackedCreateAnthropic cfg resp' meta' lat').1 = resp' := by
  refine ⟨?_, ?_, ?_⟩
  · cases net <;> rfl
  · cases h : resp.usage <;> simp [trackedCreateOpenAI, h]
  · cases h : resp'.usage <;> simp [trackedCreateAnthropic, h]

/-- C5: provider detection lowercases the base URL and returns the slug
of the first entry of the fixed ordered table whose substring occurs
anywhere in it; when no table substring occurs, or the base URL is
missing/unreadable (modelled as `none`, which the source collapses to
the empty string), it returns `"openai"`; the detector is a total
function, so it never raises.  Concretely, a URL containing
`googleapis` resolves to `google` and a missing base URL to `openai`. -/
theorem detect_provider_spec (u : Option String) :
    ((∃ pre kw slug post,
        openaiCompatProviders = pre ++ (kw, slug) :: post ∧
        occursIn kw (strLower (u.getD "")) ∧
        (∀ p ∈ pre, ¬ occursIn p.1 (strLower (u.getD ""))) ∧
        detectProvider u = slug) ∨
     ((∀ p ∈ openaiCompatProviders, ¬ occursIn p.1 (strLower (u.getD ""))) ∧
        detectProvider u = "openai")) ∧
    detectProvider none = "openai" ∧
    detectProvider (some "api.GoogleAPIs.com") = "google" := by
  refine ⟨?_, by decide, by decide⟩
  rcases detectLoop_first_match openaiCompatProviders (strLower (u.getD "")) with
    ⟨pre, kw, slug, post, heq, hc, hpre, hres⟩ | ⟨hall, hres⟩
  · exact Or.inl ⟨pre, kw, slug, post, heq, (strContains_iff _ _).mp hc,
      fun p hp => (strContains_false_iff _ _).mp (hpre p hp), hres⟩
  · exact Or.inr ⟨fun p hp => (strContains_false_iff _ _).mp (hall p hp), hres⟩

/-- C6: a dispatched record omits every logically absent field: with no
agent id (call-specific or default), no feature name, no team id, and
an empty merged tag map, none of those keys appear in the serialized
record, and zero cache-read / cache-write counts are omitted rather
than transmitted as explicit zeros. -/
theorem track_strips_absent_fields (cfg : Config) (a : TrackArgs)
    (hag : a.agent_id = none) (hdef : cfg.default_agent_id = none)
    (hfeat : a.feature_name = none) (hteam : a.team_id = none)
    (htags : dictMerge cfg.default_tags (a.tags.getD []) = [])
    (hcr : a.cache_read_tokens = 0) (hcw : a.cache_write_tokens = 0) :
    dictHasKey (buildData cfg a) "agent_id" = false ∧
    dictHasKey (buildData cfg a) "feature_name" = false ∧
    dictHasKey (buildData cfg a) "team_id" = false ∧
    dictHasKey (buildData cfg a) "tags" = false ∧
    dictHasKey (buildData cfg a) "cache_read_tokens" = false ∧
    dictHasKey (buildData cfg a) "cache_write_tokens" = false := by
  refine ⟨?_, ?_, ?_, ?_, ?_, ?_⟩ <;>
    rw [dictHasKey_eq_isSome, dictGet?_buildData cfg a]
  · show ((strOrOpt a.agent_id cfg.default_agent_id).map Value.vStr).isSome = false
    simp [hag, hdef, strOrOpt]
  · show ((a.feature_name.map Value.vStr).isSome) = false
    simp [hfeat]
  · show ((a.team_id.map Value.vStr).isSome) = false
    simp [hteam]
  · show ((if (dictMerge cfg.default_tags (a.tags.getD [])).isEmpty then none
        else some (Value.vTags (dictMerge cfg.default_tags (a.tags.getD [])))).isSome) = false
    simp [htags]
  · show ((if a.cache_read_tokens == 0 then none
        else some (Value.vInt a.cache_read_tokens)).isSome) = false
    simp [hcr]
  · show ((if a.cache_write_tokens == 0 then none
        else some (Value.vInt a.cache_write_tokens)).isSome) = false
    simp [hcw]

theorem track_strips_absent_fields_witness :
    dictHasKey (buildData { initialConfig with token := some "tok" }
        { provider := "openai", model := "gpt-4", input_tokens := 10, output_tokens := 5 })
        "agent_id" = false :=
  (track_strips_absent_fields
    { initialConfig with token := some "tok" }
    { provider := "openai", model := "gpt-4", input_tokens := 10, output_tokens := 5 }
    rfl rfl rfl rfl rfl rfl rfl).1

/-- C7: the tags of a dispatched record are the key-wise union of the
configured default tags and the call-supplied tags in which, on any key
present in both, the call-supplied value wins; when both maps are empty
the tags key is absent from the record, and otherwise the record
carries exactly the merged map. -/
theorem track_merges_tags (cfg : Config) (a : TrackArgs)
    (ht : ((a.tags.getD []).map Prod.fst).Nodup) :
    (∀ k, dictGet? (dictMerge cfg.default_tags (a.tags.getD [])) k
        = optOr (dictGet? (a.tags.getD []) k) (dictGet? cfg.default_tags k)) ∧
    (cfg.default_tags = [] → a.tags.getD [] = [] →
        dictHasKey (buildData cfg a) "tags" = false) ∧
    (dictMerge cfg.default_tags (a.tags.getD []) ≠ [] →
        dictGet? (buildData cfg a) "tags"
          = some (.vTags (dictMerge cfg.default_tags (a.tags.getD [])))) := by
  refine ⟨fun k => dictGet?_dictMerge _ _ ht k, ?_, ?_⟩
  · intro h1 h2
    have hm : dictMerge cfg.default_tags (a.tags.getD []) = [] := by
      rw [h1, h2]
      rfl
    rw [dictHasKey_eq_isSome, dictGet?_buildData cfg a]
    show ((if (dictMerge cfg.default_tags (a.tags.getD [])).isEmpty then none
        else some (Value.vTags (dictMerge cfg.default_tags (a.tags.getD [])))).isSome) = false
    simp [hm]
  · intro hm
    rw [dictGet?_buildData cfg a]
    show (if (dictMerge cfg.default_tags (a.tags.getD [])).isEmpty then none
        else some (Value.vTags (dictMerge cfg.default_tags (a.tags.getD [])))) = _
    simp [List.isEmpty_iff, hm]

theorem track_merges_tags_witness :
    dictGet? (dictMerge [("env", TagVal.s "prod")] [("feature", TagVal.s "chat")]) "env"
        = optOr (dictGet? [("feature", TagVal.s "chat")] "env")
                (dictGet? [("env", TagVal.s "prod")] "env") :=
  (track_merges_tags
      { initialConfig with
          token := some "tok"
          default_tags := [("env", TagVal.s "prod")] }
      { provider := "openai", model := "gpt-4", input_tokens := 1, output_tokens := 1,
        tags := some [("feature", TagVal.s "chat")] }
      (by decide)).1 "env"

/-- C9 counterexample: after a first initialization that set a custom
endpoint, a second call to `init` with no explicit url argument and no
environment variable resolves the endpoint to the previously configured
url, not to the hardcoded default the claim requires; and an explicit
url argument that is the empty string is not used either — being falsy,
it falls through to the environment variable. -/
theorem init_url_second_init_keeps_previous :
    ({} : InitArgs).url = none ∧
    ({} : EnvVars).tokenr_url = none ∧
    (initConfig (initConfig initialConfig
        { url := some "https://proxy.example/track" } {}) {} {}).url
      = "https://proxy.example/track" ∧
    "https://proxy.example/track" ≠ defaultUrl ∧
    (initConfig initialConfig { url := some "" }
        { tokenr_url := some "https://env.example/t" }).url
      = "https://env.example/t" ∧
    "https://env.example/t" ≠ "" := by
  refine ⟨rfl, rfl, rfl, by decide, rfl, by decide⟩

/-- C9 (amended): on every call, `init` resolves the endpoint URL to
the explicit url argument when given as a non-empty string, else the
environment fallback variable when set, else the currently configured
endpoint URL — and since the initial configuration holds the hardcoded
default, a first initialization absent both yields the hardcoded
default endpoint. -/
theorem init_url_resolution (cfg : Config) (a : InitArgs) (env : EnvVars) :
    (∀ u, a.url = some u → u ≠ "" → (initConfig cfg a env).url = u) ∧
    (strTruthy a.url = false → ∀ e, env.tokenr_url = some e →
        (initConfig cfg a env).url = e) ∧
    (strTruthy a.url = false → env.tokenr_url = none →
        (initConfig cfg a env).url = cfg.url) ∧
    initialConfig.url = defaultUrl := by
  refine ⟨?_, ?_, ?_, rfl⟩
  · intro u hu hne
    simp [initConfig, strOr, hu, hne]
  · intro hf e he
    cases hu : a.url with
    | none => simp [initConfig, strOr, hu, he]
    | some s =>
        rw [hu] at hf
        have hs : s = "" := by simpa [strTruthy] using hf
        simp [initConfig, strOr, hu, hs, he]
  · intro hf he
    cases hu : a.url with
    | none => simp [initConfig, strOr, hu, he]
    | some s =>
        rw [hu] at hf
        have hs : s = "" := by simpa [strTruthy] using hf
        simp [initConfig, strOr, hu, hs, he]

theorem init_url_resolution_witness :
    (initConfig initialConfig {} {}).url = defaultUrl :=
  (init_url_resolution initialConfig {} {}).2.2.1 rfl rfl

/-- C10: the `None` stripping in `track` removes exactly the
`None`-valued entries: `provider`, `model`, `input_tokens`,
`output_tokens` and `status` (whose default is `"success"`) are present
in every dispatched record, a zero `input_tokens`/`output_tokens` is
kept as an explicit zero, a supplied `latency_ms` of 0 stays an
explicit 0 (the key is present exactly when a latency was supplied),
and likewise the optional string fields are present exactly when
supplied. -/
theorem track_serializes_required_fields (cfg : Config) (a : TrackArgs) :
    dictGet? (buildData cfg a) "provider" = some (.vStr a.provider) ∧
    dictGet? (buildData cfg a) "model" = some (.vStr a.model) ∧
    dictGet? (buildData cfg a) "input_tokens" = some (.vInt a.input_tokens) ∧
    dictGet? (buildData cfg a) "output_tokens" = some (.vInt a.output_tokens) ∧
    dictGet? (buildData cfg a) "status" = some (.vStr a.status) ∧
    dictGet? (buildData cfg a) "latency_ms" = a.latency_ms.map .vInt ∧
    dictGet? (buildData cfg a) "feature_name" = a.feature_name.map .vStr ∧
    dictGet? (buildData cfg a) "requested_at" = a.requested_at.map .vStr ∧
    ({ provider := a.provider, model := a.model, input_tokens := a.input_tokens,
       output_tokens := a.output_tokens } : TrackArgs).status = "success" := by
  refine ⟨?_, ?_, ?_, ?_, ?_, ?_, ?_, ?_, rfl⟩ <;>
    rw [dictGet?_buildData cfg a] <;> rfl

end Tokenr
